import Mathlib

/-!
Verification of the Figma2Code intermediate-representation layer
(`figma_to_angular/alt_nodes.py`): name sanitization, position/size
extraction, the tree builder `convert_to_angular_nodes`, and the layout
classifier `analyze_layout` / `_analyze_node_layout`.

Modelling conventions:
* Python numeric values (floats used for coordinates and sizes) are modelled
  as exact rationals `ℚ`.
* Python strings processed character-by-character (only `_clean_name`) are
  modelled as lists of Unicode codepoints (`List ℕ`); `codes` converts a Lean
  string literal for concrete inputs.  The relevant codepoints: 45 `-`,
  48–57 digits, 65–90 `A`–`Z`, 95 `_`, 97–122 `a`–`z`, 101 `e`, 108 `l`.
* Python dicts used as property bags (`flex_props`, `grid_props`) are
  modelled as insertion-ordered association lists.
-/

namespace Figma2Code

/-! ## Name sanitization (`AngularNode._clean_name`)

```python
if not name: return "element"
clean = re.sub(r'[^a-zA-Z0-9_\-\s]', '', name)
clean = re.sub(r'\s+', '-', clean).lower()
if clean and not clean[0].isalpha(): clean = "el-" + clean
return clean or "element"
```
-/

/-- Codepoints of a Lean string, for concrete sanitizer inputs. -/
def codes (s : String) : List ℕ := s.toList.map Char.toNat

/-- Python `\s` (the ASCII part: space, tab, LF, CR, FF, VT; the cleaned
alphabet never contains non-ASCII whitespace by the time it matters). -/
def pySpace (n : ℕ) : Bool :=
  n == 32 || n == 9 || n == 10 || n == 13 || n == 12 || n == 11

/-- `A`–`Z`. -/
def isUpperCode (n : ℕ) : Bool := decide (65 ≤ n ∧ n ≤ 90)

/-- `a`–`z`. -/
def isLowerCode (n : ℕ) : Bool := decide (97 ≤ n ∧ n ≤ 122)

/-- Python `str.isalpha` on the ASCII alphabet reachable here. -/
def isAlphaCode (n : ℕ) : Bool := isUpperCode n || isLowerCode n

/-- `0`–`9`. -/
def isDigitCode (n : ℕ) : Bool := decide (48 ≤ n ∧ n ≤ 57)

/-- The character class kept by `re.sub(r'[^a-zA-Z0-9_\-\s]', '', ·)`:
letters, digits, `_` (95), `-` (45), whitespace. -/
def keepCode (n : ℕ) : Bool :=
  isAlphaCode n || isDigitCode n || n == 95 || n == 45 || pySpace n

/-- Python `str.lower` on one ASCII codepoint. -/
def lowerCode (n : ℕ) : ℕ := if isUpperCode n then n + 32 else n

/-- `re.sub(r'\s+', '-', s)`: each maximal whitespace run becomes one `-`. -/
def collapseWs : List ℕ → List ℕ
  | [] => []
  | [c] => if pySpace c then [45] else [c]
  | c :: d :: cs =>
      if pySpace c then
        if pySpace d then collapseWs (d :: cs)
        else 45 :: collapseWs (d :: cs)
      else c :: collapseWs (d :: cs)

/-- The fallback result `"element"`. -/
def elementCodes : List ℕ := codes "element"

/-- The two `re.sub` passes and `.lower()`: strip characters outside the kept
class, collapse whitespace runs to `-`, lowercase. -/
def cleanCore (name : List ℕ) : List ℕ :=
  (collapseWs (name.filter keepCode)).map lowerCode

/-- `if clean and not clean[0].isalpha(): clean = "el-" + clean` — put
`el-` (101, 108, 45) in front when the first character is not a letter. -/
def cleanAff (c1 : List ℕ) : List ℕ :=
  if c1 ≠ [] ∧ isAlphaCode c1.headI = false then 101 :: 108 :: 45 :: c1
  else c1

/-- `AngularNode._clean_name`: strip characters outside the kept class,
collapse whitespace runs to `-`, lowercase, put `el-` in front when the
first character is not a letter, fall back to `"element"` when the
input or the cleaned string is empty. -/
def cleanName (name : List ℕ) : List ℕ :=
  if name = [] then elementCodes
  else if cleanAff (cleanCore name) = [] then elementCodes
  else cleanAff (cleanCore name)

/-- Characters a cleaned name can contain: lowercase letters, digits, `_`,
`-`. -/
def goodCode (n : ℕ) : Bool :=
  isLowerCode n || isDigitCode n || n == 95 || n == 45

theorem good_keep {n : ℕ} (h : goodCode n = true) : keepCode n = true := by
  simp only [goodCode, isLowerCode, isDigitCode, Bool.or_eq_true,
    decide_eq_true_eq, beq_iff_eq] at h
  simp only [keepCode, isAlphaCode, isUpperCode, isLowerCode, isDigitCode,
    pySpace, Bool.or_eq_true, decide_eq_true_eq, beq_iff_eq]
  omega

theorem good_not_space {n : ℕ} (h : goodCode n = true) : pySpace n = false := by
  simp only [goodCode, isLowerCode, isDigitCode, Bool.or_eq_true,
    decide_eq_true_eq, beq_iff_eq] at h
  simp only [pySpace, Bool.or_eq_false_iff, beq_eq_false_iff_ne, ne_eq]
  omega

theorem good_lower_fix {n : ℕ} (h : goodCode n = true) : lowerCode n = n := by
  simp only [goodCode, isLowerCode, isDigitCode, Bool.or_eq_true,
    decide_eq_true_eq, beq_iff_eq] at h
  have : isUpperCode n = false := by
    simp only [isUpperCode, decide_eq_false_iff_not, not_and]
    omega
  simp [lowerCode, this]

theorem keep_nonspace_lower_good {n : ℕ} (h1 : keepCode n = true)
    (h2 : pySpace n = false) : goodCode (lowerCode n) = true := by
  simp only [keepCode, isAlphaCode, isUpperCode, isLowerCode, isDigitCode,
    pySpace, Bool.or_eq_true, decide_eq_true_eq, beq_iff_eq] at h1
  simp only [pySpace, Bool.or_eq_false_iff, beq_eq_false_iff_ne, ne_eq] at h2
  by_cases hu : isUpperCode n = true
  · have hu' := hu
    simp only [isUpperCode, decide_eq_true_eq] at hu'
    unfold lowerCode
    rw [if_pos hu]
    simp only [goodCode, isLowerCode, isDigitCode, Bool.or_eq_true,
      decide_eq_true_eq, beq_iff_eq]
    omega
  · unfold lowerCode
    rw [if_neg hu]
    simp only [isUpperCode, decide_eq_true_eq, not_and, not_le] at hu
    simp only [goodCode, isLowerCode, isDigitCode, Bool.or_eq_true,
      decide_eq_true_eq, beq_iff_eq]
    omega

theorem mem_collapseWs {l : List ℕ} {a : ℕ} (h : a ∈ collapseWs l) :
    a = 45 ∨ (a ∈ l ∧ pySpace a = false) := by
  induction l with
  | nil => simp [collapseWs] at h
  | cons c cs ih =>
    cases cs with
    | nil =>
      by_cases hc : pySpace c = true
      · simp [collapseWs, hc] at h
        exact Or.inl h
      · simp only [Bool.not_eq_true] at hc
        simp [collapseWs, hc] at h
        exact Or.inr ⟨by simp [h], h ▸ hc⟩
    | cons d ds =>
      by_cases hc : pySpace c = true
      · by_cases hd : pySpace d = true
        · simp only [collapseWs, hc, hd, if_pos] at h
          rcases ih h with h45 | ⟨hm, hsp⟩
          · exact Or.inl h45
          · exact Or.inr ⟨List.mem_cons_of_mem c hm, hsp⟩
        · simp only [Bool.not_eq_true] at hd
          simp only [collapseWs, hc, hd, if_pos, Bool.false_eq_true, if_neg,
            not_false_iff, List.mem_cons] at h
          rcases h with h45 | h
          · exact Or.inl h45
          · rcases ih h with h45 | ⟨hm, hsp⟩
            · exact Or.inl h45
            · exact Or.inr ⟨List.mem_cons_of_mem c hm, hsp⟩
      · simp only [Bool.not_eq_true] at hc
        simp only [collapseWs, hc, Bool.false_eq_true, if_neg, not_false_iff,
          List.mem_cons] at h
        rcases h with rfl | h
        · exact Or.inr ⟨List.mem_cons_self a (d :: ds), hc⟩
        · rcases ih h with h45 | ⟨hm, hsp⟩
          · exact Or.inl h45
          · exact Or.inr ⟨List.mem_cons_of_mem c hm, hsp⟩

theorem collapseWs_id {l : List ℕ} (h : ∀ a ∈ l, pySpace a = false) :
    collapseWs l = l := by
  induction l with
  | nil => rfl
  | cons c cs ih =>
    have hc : pySpace c = false := h c (List.mem_cons_self c cs)
    cases cs with
    | nil => simp [collapseWs, hc]
    | cons d ds =>
      have hrest : ∀ a ∈ d :: ds, pySpace a = false := fun a ha =>
        h a (List.mem_cons_of_mem c ha)
      simp [collapseWs, hc, ih hrest]

theorem map_lower_id {l : List ℕ} (h : ∀ a ∈ l, goodCode a = true) :
    l.map lowerCode = l := by
  induction l with
  | nil => rfl
  | cons c cs ih =>
    have hc := good_lower_fix (h c (List.mem_cons_self c cs))
    have hrest : ∀ a ∈ cs, goodCode a = true := fun a ha =>
      h a (List.mem_cons_of_mem c ha)
    simp [hc, ih hrest]

theorem filter_keep_id {l : List ℕ} (h : ∀ a ∈ l, goodCode a = true) :
    l.filter keepCode = l := by
  induction l with
  | nil => rfl
  | cons c cs ih =>
    have hc := good_keep (h c (List.mem_cons_self c cs))
    have hrest : ∀ a ∈ cs, goodCode a = true := fun a ha =>
      h a (List.mem_cons_of_mem c ha)
    simp [List.filter_cons, hc, ih hrest]

theorem cleanCore_good (name : List ℕ) :
    ∀ a ∈ cleanCore name, goodCode a = true := by
  intro a ha
  rcases List.mem_map.mp ha with ⟨b, hb, rfl⟩
  rcases mem_collapseWs hb with rfl | ⟨hbm, hbs⟩
  · decide
  · exact keep_nonspace_lower_good (List.of_mem_filter hbm) hbs

/-- Structure of every sanitizer output: nonempty, only good characters,
and a letter in front. -/
theorem cleanName_good (name : List ℕ) :
    cleanName name ≠ [] ∧ (∀ a ∈ cleanName name, goodCode a = true) ∧
      isAlphaCode (cleanName name).headI = true := by
  have helem : (elementCodes ≠ [] ∧ (∀ a ∈ elementCodes, goodCode a = true) ∧
      isAlphaCode elementCodes.headI = true) := by decide
  have hgood1 := cleanCore_good name
  unfold cleanName
  by_cases h0 : name = []
  · rw [if_pos h0]; exact helem
  · rw [if_neg h0]
    by_cases hce : cleanAff (cleanCore name) = []
    · rw [if_pos hce]; exact helem
    · rw [if_neg hce]
      unfold cleanAff at hce ⊢
      by_cases hg : cleanCore name ≠ [] ∧
          isAlphaCode (cleanCore name).headI = false
      · rw [if_pos hg] at hce ⊢
        refine ⟨by simp, ?_, by show isAlphaCode 101 = true; decide⟩
        intro a ha
        simp only [List.mem_cons] at ha
        rcases ha with rfl | rfl | rfl | ha
        · decide
        · decide
        · decide
        · exact hgood1 a ha
      · rw [if_neg hg] at hce ⊢
        have halpha : isAlphaCode (cleanCore name).headI = true := by
          by_contra hh
          exact hg ⟨hce, Bool.not_eq_true _ |>.mp hh⟩
        exact ⟨hce, hgood1, halpha⟩

/-- Applied to a string that already has the shape of a sanitizer output,
the sanitizer is the identity. -/
theorem cleanName_fix {r : List ℕ} (hne : r ≠ [])
    (hgood : ∀ a ∈ r, goodCode a = true)
    (halpha : isAlphaCode r.headI = true) : cleanName r = r := by
  have hcore : cleanCore r = r := by
    unfold cleanCore
    rw [filter_keep_id hgood,
      collapseWs_id (fun a ha => good_not_space (hgood a ha)),
      map_lower_id hgood]
  have haff : cleanAff r = r := by
    unfold cleanAff
    rw [if_neg]
    intro hh
    rw [halpha] at hh
    exact absurd hh.2 (by simp)
  unfold cleanName
  rw [if_neg hne, hcore, haff, if_neg hne]

/-- Claim C9: name sanitization is idempotent — applying `_clean_name`
(strip characters outside `[a-zA-Z0-9_\- \s]`, collapse whitespace runs to
hyphens, lowercase, put `el-` in front when the result does not start with a
letter, default `element` when empty) to an already-sanitized name returns
that name unchanged. -/
theorem cleanName_idempotent (name : List ℕ) :
    cleanName (cleanName name) = cleanName name := by
  obtain ⟨hne, hgood, halpha⟩ := cleanName_good name
  exact cleanName_fix hne hgood halpha

/-! ## Position and size extraction
(`AngularNode._extract_position`, `AngularNode._extract_size`)

The raw-record fields these two methods probe: `absoluteBoundingBox`
(optionally carrying `x`, `y`, `width`, `height`) and `constraints`
(optionally carrying `horizontal`, `vertical`, `width`, `height`).
`node.get("constraints", {})` makes an absent `constraints` dict behave like
one with no entries, so it is modelled as a record of `Option` fields whose
all-`none` value is the absent dict. -/

/-- `absoluteBoundingBox`, each entry optional (`bbox.get(k, 0)` defaults). -/
structure BBox where
  x : Option ℚ
  y : Option ℚ
  width : Option ℚ
  height : Option ℚ
deriving DecidableEq

/-- `node.get("constraints", {})` entries probed by the extractors. -/
structure ConstraintsRec where
  horizontal : Option String
  vertical : Option String
  width : Option String
  height : Option String
deriving DecidableEq

/-- The raw-record fields read by `_extract_position` / `_extract_size`. -/
structure RawGeom where
  bbox : Option BBox
  constraints : ConstraintsRec
deriving DecidableEq

/-- Result of `_extract_position`: the `position` dict. -/
structure PosRec where
  x : ℚ
  y : ℚ
  mode : String
deriving DecidableEq

/-- `width`/`height` values are either the untouched default `"auto"` or a
number taken from the bounding box. -/
inductive Dim where
  | auto : Dim
  | num : ℚ → Dim
deriving DecidableEq

/-- Result of `_extract_size`: the `size` dict. -/
structure SizeRec where
  width : Dim
  height : Dim
  width_type : String
  height_type : String
deriving DecidableEq

/-- `AngularNode._extract_position`: start from
`{"x": 0, "y": 0, "position": "relative"}`, copy `x`/`y` from the bounding
box when present, and switch to `"absolute"` when the horizontal constraint
is `LEFT_RIGHT` or the vertical constraint is `TOP_BOTTOM`. -/
def extractPosition (n : RawGeom) : PosRec :=
  let x := match n.bbox with
    | some b => b.x.getD 0
    | none => 0
  let y := match n.bbox with
    | some b => b.y.getD 0
    | none => 0
  let mode :=
    if n.constraints.horizontal = some "LEFT_RIGHT" ∨
        n.constraints.vertical = some "TOP_BOTTOM"
    then "absolute" else "relative"
  ⟨x, y, mode⟩

/-- `AngularNode._extract_size`: start from
`{"width": "auto", "height": "auto"}`, copy `width`/`height` from the
bounding box when present (defaulting each missing entry to 0), and mark each
axis `"fixed"` exactly when the corresponding constraint entry is `FIXED`,
else `"flexible"`. -/
def extractSize (n : RawGeom) : SizeRec :=
  let w := match n.bbox with
    | some b => Dim.num (b.width.getD 0)
    | none => Dim.auto
  let h := match n.bbox with
    | some b => Dim.num (b.height.getD 0)
    | none => Dim.auto
  let wt := if n.constraints.width = some "FIXED" then "fixed" else "flexible"
  let ht := if n.constraints.height = some "FIXED" then "fixed" else "flexible"
  ⟨w, h, wt, ht⟩

/-- A record whose constraints pin only the horizontal axis
(`horizontal = LEFT_RIGHT`, `vertical` absent). -/
def rawHorizOnly : RawGeom :=
  ⟨none, ⟨some "LEFT_RIGHT", none, none, none⟩⟩

/-- Claim C7, counterexample: the claim says `position_mode` is `absolute`
exactly when BOTH axes' constraint flags indicate independent positioning;
but on a record whose constraints pin only the horizontal axis the code
already produces `absolute`, so the claimed biconditional fails. -/
theorem extractPosition_both_axes_counterexample :
    (extractPosition rawHorizOnly).mode = "absolute" ∧
      ¬(rawHorizOnly.constraints.horizontal = some "LEFT_RIGHT" ∧
        rawHorizOnly.constraints.vertical = some "TOP_BOTTOM") := by
  constructor
  · rfl
  · intro h
    exact absurd h.2 (by decide)

/-- Claim C7 (amended): a node's position mode is `absolute` exactly when the
horizontal constraint is `LEFT_RIGHT` OR the vertical constraint is
`TOP_BOTTOM` (either axis suffices), and `relative` in every other case. -/
theorem extractPosition_mode_spec (n : RawGeom) :
    ((extractPosition n).mode = "absolute" ↔
      (n.constraints.horizontal = some "LEFT_RIGHT" ∨
        n.constraints.vertical = some "TOP_BOTTOM")) ∧
    ((extractPosition n).mode ≠ "absolute" →
      (extractPosition n).mode = "relative") := by
  unfold extractPosition
  by_cases h : n.constraints.horizontal = some "LEFT_RIGHT" ∨
      n.constraints.vertical = some "TOP_BOTTOM"
  · simp [h]
  · simp [h]

/-- Witness for the amended C7: a record with only the vertical constraint
`TOP_BOTTOM` gets mode `absolute`. -/
theorem extractPosition_mode_spec_witness :
    (extractPosition ⟨none, ⟨none, some "TOP_BOTTOM", none, none⟩⟩).mode =
      "absolute" :=
  (extractPosition_mode_spec ⟨none, ⟨none, some "TOP_BOTTOM", none, none⟩⟩).1.mpr
    (Or.inr rfl)

/-- A raw record carrying no bounding-box information at all. -/
def rawNoBBox : RawGeom := ⟨none, ⟨none, none, none, none⟩⟩

/-- Claim C8, counterexample: the claim says width/height default to 0 when
the record carries no bounding box; the code leaves them at the initial
`"auto"` instead (the 0 default applies only to missing entries of a present
bounding box). -/
theorem extractSize_no_bbox_counterexample :
    (extractSize rawNoBBox).width = Dim.auto ∧
      (extractSize rawNoBBox).height = Dim.auto ∧
      Dim.auto ≠ Dim.num 0 := by
  refine ⟨rfl, rfl, by decide⟩

/-- Claim C8 (amended): without a bounding box, width and height stay
`"auto"`; with a bounding box, each one defaults to 0 only when the box lacks
the corresponding entry; and independently each axis is marked `fixed`
exactly when the corresponding size-constraint flag is `FIXED`, `flexible`
otherwise (in particular with no constraint info at all). -/
theorem extractSize_spec (n : RawGeom) :
    (n.bbox = none →
      (extractSize n).width = Dim.auto ∧ (extractSize n).height = Dim.auto) ∧
    (∀ b, n.bbox = some b →
      (extractSize n).width = Dim.num (b.width.getD 0) ∧
      (extractSize n).height = Dim.num (b.height.getD 0)) ∧
    ((extractSize n).width_type = "fixed" ↔
      n.constraints.width = some "FIXED") ∧
    ((extractSize n).width_type ≠ "fixed" →
      (extractSize n).width_type = "flexible") ∧
    ((extractSize n).height_type = "fixed" ↔
      n.constraints.height = some "FIXED") ∧
    ((extractSize n).height_type ≠ "fixed" →
      (extractSize n).height_type = "flexible") := by
  unfold extractSize
  refine ⟨?_, ?_, ?_, ?_, ?_, ?_⟩
  · intro h; simp [h]
  · intro b hb; simp [hb]
  · by_cases h : n.constraints.width = some "FIXED" <;> simp [h]
  · by_cases h : n.constraints.width = some "FIXED" <;> simp [h]
  · by_cases h : n.constraints.height = some "FIXED" <;> simp [h]
  · by_cases h : n.constraints.height = some "FIXED" <;> simp [h]

/-- Witness for the amended C8, evaluated on a record with no bounding box
and no constraint info: sizes stay `auto` and both axes are `flexible`. -/
theorem extractSize_spec_witness :
    (extractSize rawNoBBox).width = Dim.auto ∧
      (extractSize rawNoBBox).width_type = "flexible" := by
  refine ⟨((extractSize_spec rawNoBBox).1 rfl).1, ?_⟩
  refine (extractSize_spec rawNoBBox).2.2.2.1 ?_
  intro h
  have := (extractSize_spec rawNoBBox).2.2.1.mp h
  exact absurd this (by decide)

/-! ## The layout classifier (`analyze_layout`, `_analyze_node_layout`)

`AngularNode` fields the classifier reads or writes: `is_container`,
`position["x"|"y"|"position"]`, `size["width"|"height"]`,
`layout["type"|"direction"|"spacing"]`, `flex_props`, `grid_props`, and
`children`.  The helper predicates (`_children_aligned_*`,
`_calculate_*_spacing`, `_detect_*_alignment`, `_appears_to_be_grid`,
`_detect_grid_dimensions`, `_calculate_grid_gaps`) read only the children's
`x`, `y`, `width`, `height`, collected here in `Geom`.

Property values of `flex_props`/`grid_props` are the strings the source
writes; formatted values (`f"{v}px"`, `f"repeat({n}, 1fr)"`,
`f"repeat({n}, auto)"`) are kept structured in `PVal` instead of rendering
floats to text. -/

/-- A property value in `flex_props` / `grid_props`. -/
inductive PVal where
  | s : String → PVal
  | px : ℚ → PVal
  | repFr : ℕ → PVal
  | repAuto : ℕ → PVal
deriving DecidableEq

/-- The child geometry the classifier's helpers read: `position["x"]`,
`position["y"]`, `size["width"]`, `size["height"]`. -/
structure Geom where
  x : ℚ
  y : ℚ
  width : ℚ
  height : ℚ
deriving DecidableEq, Inhabited

/-- The per-node fields of `AngularNode` touched by layout analysis.
`geom.x`/`geom.y` are `position["x"]`/`position["y"]`, `posMode` is
`position["position"]`, `geom.width`/`geom.height` are the `size` entries,
`layoutType`/`direction`/`spacing` are the `layout` entries. -/
structure NodeData where
  is_container : Bool
  geom : Geom
  posMode : String
  layoutType : String
  direction : Option String
  spacing : ℚ
  flex_props : List (String × PVal)
  grid_props : List (String × PVal)
deriving DecidableEq, Inhabited

/-- An `AngularNode` with its (document-ordered) children. -/
inductive ANode where
  | mk : NodeData → List ANode → ANode

def ANode.data : ANode → NodeData
  | .mk d _ => d

def ANode.children : ANode → List ANode
  | .mk _ cs => cs

instance : Inhabited ANode := ⟨.mk default []⟩

/-- Python `max` over a nonempty list (for `max(x_positions)` etc.). -/
def pyMax (l : List ℚ) : ℚ := l.foldl max l.headI

/-- Python `min` over a nonempty list. -/
def pyMin (l : List ℚ) : ℚ := l.foldl min l.headI

/-- `_children_aligned_horizontally`: ≥ 2 children, every `y` within 5 of the
mean `y`, and `max(x) - min(x) > 20`. -/
def childrenAlignedHorizontally (g : List Geom) : Bool :=
  if g.length < 2 then false
  else if (g.map (fun c => c.y)).all (fun y => decide
      (|y - (g.map (fun c => c.y)).sum / (((g.map (fun c => c.y)).length : ℚ))| ≤ 5))
  then decide (20 < pyMax (g.map (fun c => c.x)) - pyMin (g.map (fun c => c.x)))
  else false

/-- `_children_aligned_vertically`: ≥ 2 children, every `x` within 5 of the
mean `x`, and `max(y) - min(y) > 20`. -/
def childrenAlignedVertically (g : List Geom) : Bool :=
  if g.length < 2 then false
  else if (g.map (fun c => c.x)).all (fun x => decide
      (|x - (g.map (fun c => c.x)).sum / (((g.map (fun c => c.x)).length : ℚ))| ≤ 5))
  then decide (20 < pyMax (g.map (fun c => c.y)) - pyMin (g.map (fun c => c.y)))
  else false

/-- Stable insertion into a sorted list: the new element goes BEFORE any
element with an equal key.  In the fold-right insertion sort below, the
already-sorted tail holds exactly the elements that came later in the input,
so placing the new element before equal keys preserves input order on ties —
stable exactly like Python's `sorted(key=...)`. -/
def insertByKey {α β : Type} [LinearOrder β] (key : α → β) (c : α) :
    List α → List α
  | [] => [c]
  | d :: ds => if key c ≤ key d then c :: d :: ds else d :: insertByKey key c ds

/-- Stable sort by key (Python `sorted(children, key=...)`; a stable sort by
a given key is unique, so insertion sort models Timsort faithfully). -/
def sortByKey {α β : Type} [LinearOrder β] (key : α → β) : List α → List α
  | [] => []
  | c :: cs => insertByKey key c (sortByKey key cs)

/-- Adjacent horizontal deltas `next.x - (curr.x + curr.width)` down a list. -/
def deltasX : List Geom → List ℚ
  | a :: b :: rest => (b.x - (a.x + a.width)) :: deltasX (b :: rest)
  | _ => []

/-- Adjacent vertical deltas `next.y - (curr.y + curr.height)` down a list. -/
def deltasY : List Geom → List ℚ
  | a :: b :: rest => (b.y - (a.y + a.height)) :: deltasY (b :: rest)
  | _ => []

/-- The strictly positive adjacent deltas of the children sorted by `x`. -/
def positiveGapsX (g : List Geom) : List ℚ :=
  (deltasX (sortByKey (fun c => c.x) g)).filter (fun s => decide (0 < s))

/-- The strictly positive adjacent deltas of the children sorted by `y`. -/
def positiveGapsY (g : List Geom) : List ℚ :=
  (deltasY (sortByKey (fun c => c.y) g)).filter (fun s => decide (0 < s))

/-- `_calculate_horizontal_spacing`: sort by `x`, take adjacent deltas, keep
the strictly positive ones, average them (0 when none). -/
def calculateHorizontalSpacing (g : List Geom) : ℚ :=
  if g.length < 2 then 0
  else if positiveGapsX g ≠ [] then
    (positiveGapsX g).sum / ((positiveGapsX g).length : ℚ)
  else 0

/-- `_calculate_vertical_spacing`: sort by `y`, take adjacent deltas, keep
the strictly positive ones, average them (0 when none). -/
def calculateVerticalSpacing (g : List Geom) : ℚ :=
  if g.length < 2 then 0
  else if positiveGapsY g ≠ [] then
    (positiveGapsY g).sum / ((positiveGapsY g).length : ℚ)
  else 0

/-- `_detect_vertical_alignment`: first satisfied of four ordered tests —
all `y` within 5 of the minimum (`flex-start`); all bottom edges within 5 of
the maximum (`flex-end`); all vertical centers within 10 of their mean
(`center`); more than one distinct `y` and more than 2 children
(`space-between`); otherwise nothing. -/
def detectVerticalAlignment (g : List Geom) : Option String :=
  if g = [] then none
  else if (g.map (fun c => c.y)).all
      (fun y => decide (|y - pyMin (g.map (fun c => c.y))| < 5)) then
    some "flex-start"
  else if (g.map (fun c => c.y + c.height)).all
      (fun b => decide (|b - pyMax (g.map (fun c => c.y + c.height))| < 5)) then
    some "flex-end"
  else if (g.map (fun c => c.y + c.height / 2)).all (fun c => decide
      (|c - (g.map (fun c => c.y + c.height / 2)).sum /
        (((g.map (fun c => c.y + c.height / 2)).length : ℚ))| < 10)) then
    some "center"
  else if 1 < (g.map (fun c => c.y)).dedup.length ∧ 2 < g.length then
    some "space-between"
  else none

/-- `_detect_horizontal_alignment`: the same four ordered tests on `x`,
right edges, and horizontal centers. -/
def detectHorizontalAlignment (g : List Geom) : Option String :=
  if g = [] then none
  else if (g.map (fun c => c.x)).all
      (fun x => decide (|x - pyMin (g.map (fun c => c.x))| < 5)) then
    some "flex-start"
  else if (g.map (fun c => c.x + c.width)).all
      (fun r => decide (|r - pyMax (g.map (fun c => c.x + c.width))| < 5)) then
    some "flex-end"
  else if (g.map (fun c => c.x + c.width / 2)).all (fun c => decide
      (|c - (g.map (fun c => c.x + c.width / 2)).sum /
        (((g.map (fun c => c.x + c.width / 2)).length : ℚ))| < 10)) then
    some "center"
  else if 1 < (g.map (fun c => c.x)).dedup.length ∧ 2 < g.length then
    some "space-between"
  else none

/-- Python `round` (banker's rounding, ties to even), as used by
`round(pos / 10) * 10`. -/
def pyRound (q : ℚ) : ℤ :=
  if q - ⌊q⌋ < 1 / 2 then ⌊q⌋
  else if (1 : ℚ) / 2 < q - ⌊q⌋ then ⌊q⌋ + 1
  else if ⌊q⌋ % 2 = 0 then ⌊q⌋ else ⌊q⌋ + 1

/-- `round(pos / 10) * 10`: a coordinate's 10-unit bucket. -/
def bucket10 (q : ℚ) : ℤ := pyRound (q / 10) * 10

/-- The distinct rounded-`x` buckets of a child list (Python builds a `set`;
only its size and its sorted order are ever consumed). -/
def xBuckets (g : List Geom) : List ℤ := (g.map (fun c => bucket10 c.x)).dedup

/-- The distinct rounded-`y` buckets of a child list. -/
def yBuckets (g : List Geom) : List ℤ := (g.map (fun c => bucket10 c.y)).dedup

/-- `_appears_to_be_grid`: at least 4 children and more than one distinct
bucket on both axes. -/
def appearsToBeGrid (g : List Geom) : Bool :=
  if g.length < 4 then false
  else decide (1 < (xBuckets g).length) && decide (1 < (yBuckets g).length)

/-- `_detect_grid_dimensions`: (columns, rows) = numbers of distinct
rounded-`x` / rounded-`y` buckets. -/
def detectGridDimensions (g : List Geom) : ℕ × ℕ :=
  ((xBuckets g).length, (yBuckets g).length)

/-- Python `max(l, key=...)` (first element with the maximal key). -/
def firstMaxBy (key : Geom → ℚ) (l : List Geom) : Geom :=
  l.foldl (fun best c => if key best < key c then c else best) l.headI

/-- Python `min(l, key=...)` (first element with the minimal key). -/
def firstMinBy (key : Geom → ℚ) (l : List Geom) : Geom :=
  l.foldl (fun best c => if key c < key best then c else best) l.headI

/-- Adjacent pairs of a list. -/
def adjPairs {α : Type} : List α → List (α × α)
  | a :: b :: rest => (a, b) :: adjPairs (b :: rest)
  | _ => []

/-- `_calculate_grid_gaps` (its `cols`/`rows` parameters are unused in the
source): group children by bucket, walk adjacent buckets in ascending order,
measure (first of leftmost of the right group) − (right edge of the
first-rightmost of the left group), and average ALL the deltas — negative
ones included; same on the vertical axis. -/
def calculateGridGaps (g : List Geom) : ℚ × ℚ :=
  let colKeys := sortByKey id (xBuckets g)
  let hGaps := (adjPairs colKeys).map (fun p =>
    let right := firstMaxBy (fun c => c.x + c.width)
      (g.filter (fun c => bucket10 c.x == p.1))
    let left := firstMinBy (fun c => c.x)
      (g.filter (fun c => bucket10 c.x == p.2))
    left.x - (right.x + right.width))
  let rowKeys := sortByKey id (yBuckets g)
  let vGaps := (adjPairs rowKeys).map (fun p =>
    let bottom := firstMaxBy (fun c => c.y + c.height)
      (g.filter (fun c => bucket10 c.y == p.1))
    let top := firstMinBy (fun c => c.y)
      (g.filter (fun c => bucket10 c.y == p.2))
    top.y - (bottom.y + bottom.height))
  (if hGaps ≠ [] then hGaps.sum / (hGaps.length : ℚ) else 0,
   if vGaps ≠ [] then vGaps.sum / (vGaps.length : ℚ) else 0)

/-- The row branch of `_analyze_node_layout`: auto-layout / horizontal, flex
props `display: flex, flex-direction: row`, spacing and `gap` only when the
average positive spacing is > 0, then the detected `align-items`. -/
def rowResult (d : NodeData) (g : List Geom) : NodeData :=
  let sp := calculateHorizontalSpacing g
  let fp := [("display", PVal.s "flex"), ("flex-direction", PVal.s "row")]
  let fp := if 0 < sp then fp ++ [("gap", PVal.px sp)] else fp
  let fp := match detectVerticalAlignment g with
    | some a => fp ++ [("align-items", PVal.s a)]
    | none => fp
  { d with layoutType := "auto-layout", direction := some "horizontal",
           spacing := if 0 < sp then sp else d.spacing, flex_props := fp }

/-- The column branch of `_analyze_node_layout`. -/
def colResult (d : NodeData) (g : List Geom) : NodeData :=
  let sp := calculateVerticalSpacing g
  let fp := [("display", PVal.s "flex"), ("flex-direction", PVal.s "column")]
  let fp := if 0 < sp then fp ++ [("gap", PVal.px sp)] else fp
  let fp := match detectHorizontalAlignment g with
    | some a => fp ++ [("align-items", PVal.s a)]
    | none => fp
  { d with layoutType := "auto-layout", direction := some "vertical",
           spacing := if 0 < sp then sp else d.spacing, flex_props := fp }

/-- The grid branch of `_analyze_node_layout`: grid props with
`repeat(cols, 1fr)` / `repeat(rows, auto)` templates and the two gap
properties only when the corresponding averaged gap is > 0. -/
def gridResult (d : NodeData) (g : List Geom) : NodeData :=
  let dims := detectGridDimensions g
  let gp := [("display", PVal.s "grid"),
             ("grid-template-columns", PVal.repFr dims.1),
             ("grid-template-rows", PVal.repAuto dims.2)]
  let gaps := calculateGridGaps g
  let gp := if 0 < gaps.1 then gp ++ [("column-gap", PVal.px gaps.1)] else gp
  let gp := if 0 < gaps.2 then gp ++ [("row-gap", PVal.px gaps.2)] else gp
  { d with layoutType := "grid", grid_props := gp }

/-- The branch cascade of `_analyze_node_layout`: row, else column, else
grid, else leave the node untouched. -/
def classifyStep (d : NodeData) (g : List Geom) : NodeData :=
  if childrenAlignedHorizontally g then rowResult d g
  else if childrenAlignedVertically g then colResult d g
  else if appearsToBeGrid g then gridResult d g
  else d

/-- The trailing absolute-positioning scan of `_analyze_node_layout`: when
some child is `absolute`-positioned and the node acquired neither flex nor
grid props, force the node's own position to `relative`. -/
def forceRelative (d : NodeData) (cs : List ANode) : NodeData :=
  if cs.any (fun c => c.data.posMode == "absolute") ∧
      d.flex_props = [] ∧ d.grid_props = []
  then { d with posMode := "relative" } else d

/-- `_analyze_node_layout` as a function on the node's own fields: nothing
happens for a non-container or childless node; otherwise the branch cascade
runs on the children's geometry, then the absolute-positioning scan. -/
def analyzeData (d : NodeData) (cs : List ANode) : NodeData :=
  if d.is_container = false ∨ cs.isEmpty = true then d
  else forceRelative (classifyStep d (cs.map (fun c => c.data.geom))) cs

/-- `analyze_layout`: analyze the node itself, then recurse into each child
(the source calls `analyze_layout([child])` per child). -/
def analyzeLayout : ANode → ANode
  | .mk d cs => .mk (analyzeData d cs) (cs.attach.map (fun c => analyzeLayout c.1))
termination_by t => sizeOf t
decreasing_by
  have hm := List.sizeOf_lt_of_mem c.2
  simp only [ANode.mk.sizeOf_spec]
  omega

theorem analyzeLayout_mk (d : NodeData) (cs : List ANode) :
    analyzeLayout (.mk d cs) = .mk (analyzeData d cs) (cs.map analyzeLayout) := by
  rw [analyzeLayout]
  congr 1
  exact List.attach_map_coe cs analyzeLayout

/-- Structural induction over `ANode` through the nested `List`. -/
theorem ANode.inductionOn (P : ANode → Prop)
    (h : ∀ d cs, (∀ c ∈ cs, P c) → P (ANode.mk d cs)) : ∀ t, P t
  | .mk d cs => h d cs (fun c hc => ANode.inductionOn P h c)
termination_by t => sizeOf t
decreasing_by
  have hm := List.sizeOf_lt_of_mem hc
  simp only [ANode.mk.sizeOf_spec]
  omega

/-! ### Field bookkeeping for the classifier steps -/

theorem rowResult_layoutType (d : NodeData) (g : List Geom) :
    (rowResult d g).layoutType = "auto-layout" := rfl

theorem rowResult_direction (d : NodeData) (g : List Geom) :
    (rowResult d g).direction = some "horizontal" := rfl

theorem rowResult_grid_props (d : NodeData) (g : List Geom) :
    (rowResult d g).grid_props = d.grid_props := rfl

theorem rowResult_geom (d : NodeData) (g : List Geom) :
    (rowResult d g).geom = d.geom := rfl

theorem rowResult_is_container (d : NodeData) (g : List Geom) :
    (rowResult d g).is_container = d.is_container := rfl

theorem rowResult_posMode (d : NodeData) (g : List Geom) :
    (rowResult d g).posMode = d.posMode := rfl

theorem rowResult_flex_ne (d : NodeData) (g : List Geom) :
    (rowResult d g).flex_props ≠ [] := by
  show (let sp := calculateHorizontalSpacing g; _) ≠ []
  simp only [rowResult]
  split <;> split <;> simp

theorem colResult_layoutType (d : NodeData) (g : List Geom) :
    (colResult d g).layoutType = "auto-layout" := rfl

theorem colResult_direction (d : NodeData) (g : List Geom) :
    (colResult d g).direction = some "vertical" := rfl

theorem colResult_grid_props (d : NodeData) (g : List Geom) :
    (colResult d g).grid_props = d.grid_props := rfl

theorem colResult_geom (d : NodeData) (g : List Geom) :
    (colResult d g).geom = d.geom := rfl

theorem colResult_is_container (d : NodeData) (g : List Geom) :
    (colResult d g).is_container = d.is_container := rfl

theorem colResult_posMode (d : NodeData) (g : List Geom) :
    (colResult d g).posMode = d.posMode := rfl

theorem colResult_flex_ne (d : NodeData) (g : List Geom) :
    (colResult d g).flex_props ≠ [] := by
  simp only [colResult]
  split <;> split <;> simp

theorem gridResult_layoutType (d : NodeData) (g : List Geom) :
    (gridResult d g).layoutType = "grid" := rfl

theorem gridResult_flex_props (d : NodeData) (g : List Geom) :
    (gridResult d g).flex_props = d.flex_props := rfl

theorem gridResult_geom (d : NodeData) (g : List Geom) :
    (gridResult d g).geom = d.geom := rfl

theorem gridResult_is_container (d : NodeData) (g : List Geom) :
    (gridResult d g).is_container = d.is_container := rfl

theorem gridResult_posMode (d : NodeData) (g : List Geom) :
    (gridResult d g).posMode = d.posMode := rfl

theorem gridResult_grid_ne (d : NodeData) (g : List Geom) :
    (gridResult d g).grid_props ≠ [] := by
  simp only [gridResult]
  split <;> split <;> simp

theorem forceRelative_geom (d : NodeData) (cs : List ANode) :
    (forceRelative d cs).geom = d.geom := by
  unfold forceRelative; split <;> rfl

theorem forceRelative_is_container (d : NodeData) (cs : List ANode) :
    (forceRelative d cs).is_container = d.is_container := by
  unfold forceRelative; split <;> rfl

theorem forceRelative_layoutType (d : NodeData) (cs : List ANode) :
    (forceRelative d cs).layoutType = d.layoutType := by
  unfold forceRelative; split <;> rfl

theorem forceRelative_direction (d : NodeData) (cs : List ANode) :
    (forceRelative d cs).direction = d.direction := by
  unfold forceRelative; split <;> rfl

theorem forceRelative_spacing (d : NodeData) (cs : List ANode) :
    (forceRelative d cs).spacing = d.spacing := by
  unfold forceRelative; split <;> rfl

theorem forceRelative_flex_props (d : NodeData) (cs : List ANode) :
    (forceRelative d cs).flex_props = d.flex_props := by
  unfold forceRelative; split <;> rfl

theorem forceRelative_grid_props (d : NodeData) (cs : List ANode) :
    (forceRelative d cs).grid_props = d.grid_props := by
  unfold forceRelative; split <;> rfl

theorem forceRelative_posMode (d : NodeData) (cs : List ANode) :
    (forceRelative d cs).posMode = d.posMode ∨
      (forceRelative d cs).posMode = "relative" := by
  unfold forceRelative; split
  · exact Or.inr rfl
  · exact Or.inl rfl

theorem classifyStep_geom (d : NodeData) (g : List Geom) :
    (classifyStep d g).geom = d.geom := by
  unfold classifyStep
  split
  · exact rowResult_geom d g
  split
  · exact colResult_geom d g
  split
  · exact gridResult_geom d g
  · rfl

theorem classifyStep_is_container (d : NodeData) (g : List Geom) :
    (classifyStep d g).is_container = d.is_container := by
  unfold classifyStep
  split
  · exact rowResult_is_container d g
  split
  · exact colResult_is_container d g
  split
  · exact gridResult_is_container d g
  · rfl

theorem classifyStep_posMode (d : NodeData) (g : List Geom) :
    (classifyStep d g).posMode = d.posMode := by
  unfold classifyStep
  split
  · exact rowResult_posMode d g
  split
  · exact colResult_posMode d g
  split
  · exact gridResult_posMode d g
  · rfl

theorem analyzeData_geom (d : NodeData) (cs : List ANode) :
    (analyzeData d cs).geom = d.geom := by
  unfold analyzeData
  split
  · rfl
  · rw [forceRelative_geom, classifyStep_geom]

theorem analyzeData_is_container (d : NodeData) (cs : List ANode) :
    (analyzeData d cs).is_container = d.is_container := by
  unfold analyzeData
  split
  · rfl
  · rw [forceRelative_is_container, classifyStep_is_container]

theorem analyzeData_posMode (d : NodeData) (cs : List ANode) :
    (analyzeData d cs).posMode = d.posMode ∨
      (analyzeData d cs).posMode = "relative" := by
  unfold analyzeData
  split
  · exact Or.inl rfl
  · rcases forceRelative_posMode (classifyStep d (cs.map fun c => c.data.geom)) cs
      with h | h
    · rw [h, classifyStep_posMode]; exact Or.inl rfl
    · exact Or.inr h

theorem analyzeLayout_data_geom (c : ANode) :
    (analyzeLayout c).data.geom = c.data.geom := by
  rcases c with ⟨d, cs⟩
  rw [analyzeLayout_mk]
  exact analyzeData_geom d cs

theorem analyzeLayout_posMode_abs {c : ANode}
    (h : (analyzeLayout c).data.posMode = "absolute") :
    c.data.posMode = "absolute" := by
  rcases c with ⟨d, cs⟩
  rw [analyzeLayout_mk] at h
  simp only [ANode.data] at h ⊢
  rcases analyzeData_posMode d cs with h2 | h2
  · rw [← h2]; exact h
  · rw [h2] at h
    exact absurd h (by decide)

/-! ### Claim C2: branch priority and the type/props shape invariant -/

/-- A node that has not yet acquired any derived layout props. -/
def emptyPropsB (d : NodeData) : Bool :=
  decide (d.flex_props = [] ∧ d.grid_props = [])

/-- `layout.type` agrees with the derived props: grid props only for grid
type, flex props only with a horizontal/vertical direction, never both. -/
def shapeOKB (d : NodeData) : Bool :=
  decide ((d.grid_props ≠ [] → d.layoutType = "grid") ∧
    (d.flex_props ≠ [] →
      d.direction = some "horizontal" ∨ d.direction = some "vertical") ∧
    (d.flex_props = [] ∨ d.grid_props = []))

/-- `p` holds on a node and all its descendants. -/
def allNodesB (p : NodeData → Bool) : ANode → Bool
  | .mk d cs => p d && (cs.attach.all (fun c => allNodesB p c.1))
termination_by t => sizeOf t
decreasing_by
  have hm := List.sizeOf_lt_of_mem c.2
  simp only [ANode.mk.sizeOf_spec]
  omega

theorem allNodesB_mk (p : NodeData → Bool) (d : NodeData) (cs : List ANode) :
    allNodesB p (.mk d cs) = (p d && cs.all (allNodesB p)) := by
  rw [allNodesB]
  by_cases hall : cs.all (allNodesB p) = true
  · rw [hall]
    rw [List.all_eq_true] at hall
    have : cs.attach.all (fun c => allNodesB p c.1) = true := by
      rw [List.all_eq_true]
      intro c _
      exact hall c.1 c.2
    rw [this]
  · rw [Bool.not_eq_true] at hall
    rw [hall]
    have : cs.attach.all (fun c => allNodesB p c.1) = false := by
      rw [Bool.eq_false_iff]
      intro hT
      rw [List.all_eq_true] at hT
      have : cs.all (allNodesB p) = true := by
        rw [List.all_eq_true]
        intro c hc
        exact hT ⟨c, hc⟩ (List.mem_attach cs ⟨c, hc⟩)
      rw [this] at hall
      exact absurd hall (by decide)
    rw [this]

theorem analyzeData_shape {d : NodeData} (cs : List ANode)
    (hf : d.flex_props = []) (hg : d.grid_props = []) :
    shapeOKB (analyzeData d cs) = true := by
  have hbase : shapeOKB d = true := by
    simp [shapeOKB, hf, hg]
  unfold analyzeData
  split
  · exact hbase
  · simp only [shapeOKB, decide_eq_true_eq, forceRelative_grid_props,
      forceRelative_layoutType, forceRelative_flex_props,
      forceRelative_direction]
    unfold classifyStep
    split
    · refine ⟨?_, ?_, ?_⟩
      · intro hh
        rw [rowResult_grid_props] at hh
        exact absurd hg hh
      · intro _
        rw [rowResult_direction]
        exact Or.inl rfl
      · rw [rowResult_grid_props, hg]
        exact Or.inr rfl
    split
    · refine ⟨?_, ?_, ?_⟩
      · intro hh
        rw [colResult_grid_props] at hh
        exact absurd hg hh
      · intro _
        rw [colResult_direction]
        exact Or.inr rfl
      · rw [colResult_grid_props, hg]
        exact Or.inr rfl
    split
    · refine ⟨?_, ?_, ?_⟩
      · intro _
        exact gridResult_layoutType d _
      · intro hh
        rw [gridResult_flex_props] at hh
        exact absurd hf hh
      · rw [gridResult_flex_props, hf]
        exact Or.inl rfl
    · exact ⟨fun hh => absurd hg hh, fun hh => absurd hf hh, Or.inl hf⟩

/-- Claim C2: the classifier's branches are tried in the fixed order row,
column, grid, default with the first match winning; consequently after
classification every node's `layout.type` agrees with its derived props
(grid props non-empty only for type `grid`, flex props non-empty only with
a horizontal/vertical direction, never both non-empty); a container with
fewer than 2 children matches neither row nor column and with fewer than 4
children never matches grid; and a container with exactly 1 child keeps
`layout.type == "default"` with no flex or grid props. -/
theorem classifier_priority_and_shape :
    (∀ t, allNodesB emptyPropsB t = true →
      allNodesB shapeOKB (analyzeLayout t) = true) ∧
    (∀ g : List Geom, g.length < 2 →
      childrenAlignedHorizontally g = false ∧
        childrenAlignedVertically g = false) ∧
    (∀ g : List Geom, g.length < 4 → appearsToBeGrid g = false) ∧
    (∀ (d : NodeData) (cs : List ANode), d.is_container = true → cs ≠ [] →
      childrenAlignedHorizontally (cs.map (fun c => c.data.geom)) = true →
      (analyzeData d cs).layoutType = "auto-layout" ∧
        (analyzeData d cs).direction = some "horizontal") ∧
    (∀ (d : NodeData) (c : ANode), d.layoutType = "default" →
      d.flex_props = [] → d.grid_props = [] →
      (analyzeData d [c]).layoutType = "default" ∧
        (analyzeData d [c]).flex_props = [] ∧
        (analyzeData d [c]).grid_props = []) := by
  refine ⟨?_, ?_, ?_, ?_, ?_⟩
  · intro t
    induction t using ANode.inductionOn with
    | _ d cs ih =>
      intro hin
      rw [allNodesB_mk] at hin
      rw [analyzeLayout_mk, allNodesB_mk]
      rcases Bool.and_eq_true _ _ |>.mp hin with ⟨hd, hcs⟩
      rw [List.all_eq_true] at hcs
      simp only [emptyPropsB, decide_eq_true_eq] at hd
      refine Bool.and_eq_true _ _ |>.mpr ⟨analyzeData_shape cs hd.1 hd.2, ?_⟩
      rw [List.all_eq_true]
      intro c hc
      rcases List.mem_map.mp hc with ⟨c0, hc0, rfl⟩
      exact ih c0 hc0 (hcs c0 hc0)
  · intro g hlen
    constructor
    · unfold childrenAlignedHorizontally
      rw [if_pos hlen]
    · unfold childrenAlignedVertically
      rw [if_pos hlen]
  · intro g hlen
    unfold appearsToBeGrid
    rw [if_pos hlen]
  · intro d cs hc hne hrow
    unfold analyzeData
    rw [if_neg (by simp [hc, hne])]
    unfold classifyStep
    rw [if_pos hrow, forceRelative_layoutType, forceRelative_direction,
      rowResult_layoutType, rowResult_direction]
    exact ⟨rfl, rfl⟩
  · intro d c hdef hf hg
    have h1 : ¬ (2 ≤ ([c] : List ANode).length) := by simp
    unfold analyzeData
    split
    · exact ⟨hdef, hf, hg⟩
    · rw [forceRelative_layoutType, forceRelative_flex_props,
        forceRelative_grid_props]
      unfold classifyStep
      rw [if_neg, if_neg, if_neg]
      · exact ⟨hdef, hf, hg⟩
      · unfold appearsToBeGrid
        rw [if_pos (by simp)]
        simp
      · unfold childrenAlignedVertically
        rw [if_pos (by simp)]
        simp
      · unfold childrenAlignedHorizontally
        rw [if_pos (by simp)]
        simp

/-- Witness for claim C2's theorem at a concrete one-child container: the
analyzed tree satisfies the shape invariant and the single-child container
stays `default`. -/
theorem classifier_priority_and_shape_witness :
    allNodesB shapeOKB (analyzeLayout (.mk
      { is_container := true, geom := ⟨0, 0, 500, 500⟩, posMode := "relative",
        layoutType := "default", direction := none, spacing := 0,
        flex_props := [], grid_props := [] }
      [.mk { is_container := false, geom := ⟨10, 10, 50, 50⟩,
             posMode := "relative", layoutType := "default", direction := none,
             spacing := 0, flex_props := [], grid_props := [] } []])) = true ∧
    (analyzeData
      { is_container := true, geom := ⟨0, 0, 500, 500⟩, posMode := "relative",
        layoutType := "default", direction := none, spacing := 0,
        flex_props := [], grid_props := [] }
      [.mk { is_container := false, geom := ⟨10, 10, 50, 50⟩,
             posMode := "relative", layoutType := "default", direction := none,
             spacing := 0, flex_props := [], grid_props := [] } []]).layoutType
      = "default" := by
  constructor
  · refine classifier_priority_and_shape.1 _ ?_
    simp only [allNodesB_mk, List.all_cons, List.all_nil]
    decide
  · exact (classifier_priority_and_shape.2.2.2.2 _ _ rfl rfl rfl).1

/-! ### Claim C1: row classification and positive-gap averaging -/

theorem rowResult_flex_eq (d : NodeData) (g : List Geom) :
    (rowResult d g).flex_props =
      (if 0 < calculateHorizontalSpacing g
       then [("display", PVal.s "flex"), ("flex-direction", PVal.s "row"),
             ("gap", PVal.px (calculateHorizontalSpacing g))]
       else [("display", PVal.s "flex"), ("flex-direction", PVal.s "row")]) ++
      (match detectVerticalAlignment g with
       | some a => [("align-items", PVal.s a)]
       | none => []) := by
  by_cases hsp : 0 < calculateHorizontalSpacing g <;>
    rcases hal : detectVerticalAlignment g with _ | a <;>
      simp [rowResult, hsp, hal]

theorem rowResult_spacing (d : NodeData) (g : List Geom) :
    (rowResult d g).spacing =
      if 0 < calculateHorizontalSpacing g then calculateHorizontalSpacing g
      else d.spacing := rfl

theorem geom_map_y (cs : List ANode) :
    (cs.map (fun c => c.data.geom)).map (fun c => c.y) =
      cs.map (fun c => c.data.geom.y) := by
  rw [List.map_map]; rfl

theorem geom_map_x (cs : List ANode) :
    (cs.map (fun c => c.data.geom)).map (fun c => c.x) =
      cs.map (fun c => c.data.geom.x) := by
  rw [List.map_map]; rfl

theorem alignedH_intro (cs : List ANode) (hlen : 2 ≤ cs.length)
    (hdev : ∀ c ∈ cs, |c.data.geom.y -
      (cs.map (fun c => c.data.geom.y)).sum / (cs.length : ℚ)| ≤ 5)
    (hspread : 20 < pyMax (cs.map (fun c => c.data.geom.x)) -
      pyMin (cs.map (fun c => c.data.geom.x))) :
    childrenAlignedHorizontally (cs.map (fun c => c.data.geom)) = true := by
  unfold childrenAlignedHorizontally
  rw [if_neg (by rw [List.length_map]; omega)]
  rw [geom_map_y, geom_map_x, List.length_map]
  rw [if_pos, decide_eq_true_eq]
  · exact hspread
  · rw [List.all_eq_true]
    intro y hy
    rcases List.mem_map.mp hy with ⟨c, hcm, rfl⟩
    rw [decide_eq_true_eq]
    exact hdev c hcm

theorem isEmpty_false_of_ne {cs : List ANode} (hne : cs ≠ []) :
    cs.isEmpty = false := by
  cases cs with
  | nil => exact absurd rfl hne
  | cons c cs => rfl

/-- Claim C1: a container with ≥ 2 children whose `y` positions are each
within 5 of their mean and whose horizontal spread exceeds 20 is classified
`auto-layout` / `horizontal` with flex props `display: flex,
flex-direction: row`; the gap is the average of the strictly positive
adjacent deltas `next.x - (prev.x + prev.width)` over the children sorted by
`x`, recorded as `layout.spacing` and a pixel `gap` property exactly when
some positive delta exists; with no positive delta the spacing stays 0 and
no `gap` property appears. -/
theorem row_classification_and_gap (d : NodeData) (cs : List ANode)
    (hc : d.is_container = true) (hlen : 2 ≤ cs.length)
    (hdev : ∀ c ∈ cs, |c.data.geom.y -
      (cs.map (fun c => c.data.geom.y)).sum / (cs.length : ℚ)| ≤ 5)
    (hspread : 20 < pyMax (cs.map (fun c => c.data.geom.x)) -
      pyMin (cs.map (fun c => c.data.geom.x)))
    (hsp0 : d.spacing = 0) :
    (analyzeData d cs).layoutType = "auto-layout" ∧
    (analyzeData d cs).direction = some "horizontal" ∧
    (analyzeData d cs).flex_props.lookup "display" = some (PVal.s "flex") ∧
    (analyzeData d cs).flex_props.lookup "flex-direction" =
      some (PVal.s "row") ∧
    (positiveGapsX (cs.map (fun c => c.data.geom)) ≠ [] →
      (analyzeData d cs).spacing =
        (positiveGapsX (cs.map (fun c => c.data.geom))).sum /
          ((positiveGapsX (cs.map (fun c => c.data.geom))).length : ℚ) ∧
      (analyzeData d cs).flex_props.lookup "gap" =
        some (PVal.px ((positiveGapsX (cs.map (fun c => c.data.geom))).sum /
          ((positiveGapsX (cs.map (fun c => c.data.geom))).length : ℚ)))) ∧
    (positiveGapsX (cs.map (fun c => c.data.geom)) = [] →
      (analyzeData d cs).spacing = 0 ∧
      (analyzeData d cs).flex_props.lookup "gap" = none) := by
  have hne : cs ≠ [] := by
    intro h; rw [h] at hlen; exact absurd hlen (by decide)
  have hrow := alignedH_intro cs hlen hdev hspread
  have hglen : (cs.map (fun c => c.data.geom)).length = cs.length :=
    List.length_map _ _
  unfold analyzeData
  rw [if_neg (by simp [hc, isEmpty_false_of_ne hne])]
  unfold classifyStep
  rw [if_pos hrow]
  rw [forceRelative_layoutType, forceRelative_direction,
    forceRelative_flex_props, forceRelative_spacing,
    rowResult_layoutType, rowResult_direction, rowResult_spacing,
    rowResult_flex_eq]
  refine ⟨rfl, rfl, ?_, ?_, ?_, ?_⟩
  · by_cases hsp : 0 < calculateHorizontalSpacing (cs.map (fun c => c.data.geom)) <;>
      rcases hal : detectVerticalAlignment (cs.map (fun c => c.data.geom))
        with _ | a <;>
        simp [hsp, hal, List.lookup]
  · by_cases hsp : 0 < calculateHorizontalSpacing (cs.map (fun c => c.data.geom)) <;>
      rcases hal : detectVerticalAlignment (cs.map (fun c => c.data.geom))
        with _ | a <;>
        simp [hsp, hal, List.lookup]
  · intro hpos
    have hcalc : calculateHorizontalSpacing (cs.map (fun c => c.data.geom)) =
        (positiveGapsX (cs.map (fun c => c.data.geom))).sum /
          ((positiveGapsX (cs.map (fun c => c.data.geom))).length : ℚ) := by
      unfold calculateHorizontalSpacing
      rw [if_neg (by rw [hglen]; omega), if_pos hpos]
    have hsp : 0 < calculateHorizontalSpacing (cs.map (fun c => c.data.geom)) := by
      rw [hcalc]
      apply div_pos
      · refine List.sum_pos _ ?_ hpos
        intro a ha
        unfold positiveGapsX at ha
        have := List.of_mem_filter ha
        exact decide_eq_true_eq.mp this
      · exact_mod_cast List.length_pos.mpr hpos
    refine ⟨by rw [if_pos hsp, hcalc], ?_⟩
    rcases hal : detectVerticalAlignment (cs.map (fun c => c.data.geom))
      with _ | a
    · rw [if_pos hsp]
      simp [hal, List.lookup, hcalc]
    · rw [if_pos hsp]
      simp [hal, List.lookup, hcalc]
  · intro hzero
    have hcalc : calculateHorizontalSpacing (cs.map (fun c => c.data.geom)) = 0 := by
      unfold calculateHorizontalSpacing
      rw [if_neg (by rw [hglen]; omega), if_neg (by simp [hzero])]
    have hsp : ¬ 0 < calculateHorizontalSpacing (cs.map (fun c => c.data.geom)) := by
      rw [hcalc]; exact lt_irrefl 0
    constructor
    · rw [if_neg hsp]; exact hsp0
    · rcases hal : detectVerticalAlignment (cs.map (fun c => c.data.geom))
        with _ | a <;> simp [hsp, hal, List.lookup]

/-- A leaf node at the given geometry, as built by tree conversion (empty
props, `relative`, `default`). -/
def leafAt (x y w h : ℚ) : ANode :=
  .mk { is_container := false, geom := ⟨x, y, w, h⟩, posMode := "relative",
        layoutType := "default", direction := none, spacing := 0,
        flex_props := [], grid_props := [] } []

/-- A freshly converted container node's own fields. -/
def contData : NodeData :=
  { is_container := true, geom := ⟨0, 0, 500, 500⟩, posMode := "relative",
    layoutType := "default", direction := none, spacing := 0,
    flex_props := [], grid_props := [] }

/-- The spec's row example: `x ∈ {0,120,240}`, width 100, `y ∈ {100,102,99}`. -/
def rowChildren : List ANode :=
  [leafAt 0 100 100 50, leafAt 120 102 100 50, leafAt 240 99 100 50]

/-- The spec's 3×2 grid example: 6 children, `x ∈ {0,150,300}`,
`y ∈ {0,200}`, 100×100 each. -/
def gridChildren : List ANode :=
  [leafAt 0 0 100 100, leafAt 150 0 100 100, leafAt 300 0 100 100,
   leafAt 0 200 100 100, leafAt 150 200 100 100, leafAt 300 200 100 100]

/-- Witness for claim C1 at children `x ∈ {0,120,240}`, width 100,
`y ∈ {100,102,99}`: row classification with gap 20 (the spec's own row
example). -/
theorem row_classification_and_gap_witness :
    (analyzeData contData rowChildren).layoutType = "auto-layout" ∧
    (analyzeData contData rowChildren).spacing = 20 := by
  have h := row_classification_and_gap contData rowChildren
    rfl (by decide)
    (by intro c hc; simp only [rowChildren] at hc; fin_cases hc <;>
      norm_num [rowChildren, leafAt, ANode.data, abs_le])
    (by norm_num [rowChildren, leafAt, pyMax, pyMin, ANode.data,
      List.foldl_cons, List.foldl_nil, List.headI, max_def, min_def])
    rfl
  refine ⟨h.1, ?_⟩
  have h5 := (h.2.2.2.2.1 (by
    norm_num [rowChildren, leafAt, positiveGapsX, sortByKey, insertByKey,
      deltasX, ANode.data, List.filter]
    decide)).1
  rw [h5]
  norm_num [rowChildren, leafAt, positiveGapsX, sortByKey, insertByKey,
    deltasX, ANode.data, List.filter]

/-! ### Claim C4: cross-axis alignment for row containers -/

theorem geom_map_yh (cs : List ANode) :
    (cs.map (fun c => c.data.geom)).map (fun c => c.y + c.height) =
      cs.map (fun c => c.data.geom.y + c.data.geom.height) := by
  rw [List.map_map]; rfl

theorem geom_map_yc (cs : List ANode) :
    (cs.map (fun c => c.data.geom)).map (fun c => c.y + c.height / 2) =
      cs.map (fun c => c.data.geom.y + c.data.geom.height / 2) := by
  rw [List.map_map]; rfl

/-- Claim C4: for a row-classified container, `align-items` is chosen by the
first satisfied of four ordered tests — every `y` within 5 of the minimum
(`flex-start`), every bottom edge within 5 of the maximum (`flex-end`),
every vertical center within 10 of the centers' mean (`center`), more than 2
children with more than one distinct `y` (`space-between`) — and with none
satisfied no `align-items` property is recorded. -/
theorem cross_axis_alignment (d : NodeData) (cs : List ANode)
    (hc : d.is_container = true) (hne : cs ≠ [])
    (hrow : childrenAlignedHorizontally (cs.map (fun c => c.data.geom)) = true) :
    (analyzeData d cs).flex_props.lookup "align-items" =
      (if (cs.map (fun c => c.data.geom.y)).all (fun y => decide
          (|y - pyMin (cs.map (fun c => c.data.geom.y))| < 5)) then
        some (PVal.s "flex-start")
      else if (cs.map (fun c => c.data.geom.y + c.data.geom.height)).all
          (fun b => decide (|b -
            pyMax (cs.map (fun c => c.data.geom.y + c.data.geom.height))| < 5))
        then some (PVal.s "flex-end")
      else if (cs.map (fun c => c.data.geom.y + c.data.geom.height / 2)).all
          (fun v => decide (|v -
            (cs.map (fun c => c.data.geom.y + c.data.geom.height / 2)).sum /
              (cs.length : ℚ)| < 10)) then
        some (PVal.s "center")
      else if 1 < (cs.map (fun c => c.data.geom.y)).dedup.length ∧
          2 < cs.length then
        some (PVal.s "space-between")
      else none) := by
  have hgne : (cs.map (fun c => c.data.geom)) ≠ [] := by simp [hne]
  have hdet : detectVerticalAlignment (cs.map (fun c => c.data.geom)) =
      (if (cs.map (fun c => c.data.geom.y)).all (fun y => decide
          (|y - pyMin (cs.map (fun c => c.data.geom.y))| < 5)) then
        some "flex-start"
      else if (cs.map (fun c => c.data.geom.y + c.data.geom.height)).all
          (fun b => decide (|b -
            pyMax (cs.map (fun c => c.data.geom.y + c.data.geom.height))| < 5))
        then some "flex-end"
      else if (cs.map (fun c => c.data.geom.y + c.data.geom.height / 2)).all
          (fun v => decide (|v -
            (cs.map (fun c => c.data.geom.y + c.data.geom.height / 2)).sum /
              (cs.length : ℚ)| < 10)) then
        some "center"
      else if 1 < (cs.map (fun c => c.data.geom.y)).dedup.length ∧
          2 < cs.length then
        some "space-between"
      else none) := by
    unfold detectVerticalAlignment
    rw [if_neg hgne, geom_map_y, geom_map_yh, geom_map_yc]
    simp only [List.length_map]
  have hmain : (analyzeData d cs).flex_props.lookup "align-items" =
      Option.map PVal.s (detectVerticalAlignment (cs.map (fun c => c.data.geom))) := by
    unfold analyzeData
    rw [if_neg (by simp [hc, isEmpty_false_of_ne hne])]
    unfold classifyStep
    rw [if_pos hrow, forceRelative_flex_props, rowResult_flex_eq]
    by_cases hsp : 0 < calculateHorizontalSpacing (cs.map (fun c => c.data.geom)) <;>
      rcases hal : detectVerticalAlignment (cs.map (fun c => c.data.geom))
        with _ | a <;>
        simp [hsp, hal, List.lookup]
  rw [hmain, hdet]
  split_ifs <;> rfl

/-- Witness for claim C4 at the row example (`y ∈ {100,102,99}`): every `y`
is within 5 of the minimum 99, so the first test fires and `align-items` is
`flex-start`. -/
theorem cross_axis_alignment_witness :
    (analyzeData contData rowChildren).flex_props.lookup "align-items" =
      some (PVal.s "flex-start") := by
  have h := cross_axis_alignment contData rowChildren
    rfl (by simp [rowChildren])
    (alignedH_intro _ (by decide)
      (by intro c hc; simp only [rowChildren] at hc; fin_cases hc <;>
        norm_num [rowChildren, leafAt, ANode.data, abs_le])
      (by norm_num [rowChildren, leafAt, pyMax, pyMin, ANode.data,
        List.foldl_cons, List.foldl_nil, List.headI, max_def, min_def]))
  rw [h]
  rw [if_pos]
  rw [List.all_eq_true]
  intro y hy
  simp only [rowChildren, leafAt] at hy
  fin_cases hy <;> norm_num [rowChildren, leafAt, ANode.data, pyMin,
    List.foldl_cons, List.foldl_nil, List.headI, min_def, abs_lt]

/-! ### Claim C3: grid detection, dimensions, and gap properties -/

theorem gridResult_grid_eq (d : NodeData) (g : List Geom) :
    (gridResult d g).grid_props =
      [("display", PVal.s "grid"),
       ("grid-template-columns", PVal.repFr (xBuckets g).length),
       ("grid-template-rows", PVal.repAuto (yBuckets g).length)] ++
      (if 0 < (calculateGridGaps g).1
       then [("column-gap", PVal.px (calculateGridGaps g).1)] else []) ++
      (if 0 < (calculateGridGaps g).2
       then [("row-gap", PVal.px (calculateGridGaps g).2)] else []) := by
  by_cases h1 : 0 < (calculateGridGaps g).1 <;>
    by_cases h2 : 0 < (calculateGridGaps g).2 <;>
      simp [gridResult, detectGridDimensions, h1, h2]

/-- Claim C3: evaluated only when neither row nor column matched, grid
classification holds iff there are ≥ 4 children and both the rounded-`x` and
the rounded-`y` bucket sets have more than one element; the emitted column /
row counts are the bucket counts, and `column-gap` / `row-gap` appear exactly
when the corresponding averaged inter-bucket gap is positive. -/
theorem grid_detection_and_props :
    (∀ g : List Geom, appearsToBeGrid g = true ↔
      (4 ≤ g.length ∧ 1 < (xBuckets g).length ∧ 1 < (yBuckets g).length)) ∧
    (∀ (d : NodeData) (cs : List ANode), d.is_container = true → cs ≠ [] →
      childrenAlignedHorizontally (cs.map (fun c => c.data.geom)) = false →
      childrenAlignedVertically (cs.map (fun c => c.data.geom)) = false →
      appearsToBeGrid (cs.map (fun c => c.data.geom)) = true →
      (analyzeData d cs).layoutType = "grid" ∧
      (analyzeData d cs).grid_props.lookup "grid-template-columns" =
        some (PVal.repFr (xBuckets (cs.map (fun c => c.data.geom))).length) ∧
      (analyzeData d cs).grid_props.lookup "grid-template-rows" =
        some (PVal.repAuto (yBuckets (cs.map (fun c => c.data.geom))).length) ∧
      (analyzeData d cs).grid_props.lookup "column-gap" =
        (if 0 < (calculateGridGaps (cs.map (fun c => c.data.geom))).1
         then some (PVal.px (calculateGridGaps (cs.map (fun c => c.data.geom))).1)
         else none) ∧
      (analyzeData d cs).grid_props.lookup "row-gap" =
        (if 0 < (calculateGridGaps (cs.map (fun c => c.data.geom))).2
         then some (PVal.px (calculateGridGaps (cs.map (fun c => c.data.geom))).2)
         else none)) := by
  constructor
  · intro g
    unfold appearsToBeGrid
    by_cases hl : g.length < 4
    · rw [if_pos hl]
      simp only [Bool.false_eq_true, false_iff]
      rintro ⟨h4, _⟩
      omega
    · rw [if_neg hl]
      simp only [Bool.and_eq_true, decide_eq_true_eq]
      exact ⟨fun ⟨a, b⟩ => ⟨by omega, a, b⟩, fun ⟨_, a, b⟩ => ⟨a, b⟩⟩
  · intro d cs hc hne hrowF hcolF hgrid
    unfold analyzeData
    rw [if_neg (by simp [hc, isEmpty_false_of_ne hne])]
    unfold classifyStep
    rw [if_neg (by simp [hrowF]), if_neg (by simp [hcolF]), if_pos hgrid]
    rw [forceRelative_layoutType, forceRelative_grid_props,
      gridResult_layoutType, gridResult_grid_eq]
    refine ⟨rfl, ?_, ?_, ?_, ?_⟩ <;>
      by_cases h1 : 0 < (calculateGridGaps (cs.map (fun c => c.data.geom))).1 <;>
        by_cases h2 : 0 < (calculateGridGaps (cs.map (fun c => c.data.geom))).2 <;>
          simp [h1, h2, List.lookup]

/-- Witness for claim C3 at the 3×2 example: 6 children with `x` buckets
`{0,150,300}` and `y` buckets `{0,200}` give type `grid`, 3 columns,
2 rows. -/
theorem grid_detection_and_props_witness :
    (analyzeData contData gridChildren).layoutType = "grid" ∧
    (analyzeData contData gridChildren).grid_props.lookup
      "grid-template-columns" = some (PVal.repFr 3) ∧
    (analyzeData contData gridChildren).grid_props.lookup
      "grid-template-rows" = some (PVal.repAuto 2) := by
  have hx : xBuckets (gridChildren.map (fun c => c.data.geom)) =
      [0, 150, 300] := by
    norm_num [gridChildren, leafAt, xBuckets, bucket10, pyRound, ANode.data,
      List.dedup_cons_of_mem, List.dedup_cons_of_not_mem]
  have hy : yBuckets (gridChildren.map (fun c => c.data.geom)) = [0, 200] := by
    norm_num [gridChildren, leafAt, yBuckets, bucket10, pyRound, ANode.data,
      List.dedup_cons_of_mem, List.dedup_cons_of_not_mem]
  have h := grid_detection_and_props.2 contData gridChildren
    rfl (by simp [gridChildren])
    (by norm_num [gridChildren, leafAt, childrenAlignedHorizontally,
      ANode.data, abs_le])
    (by norm_num [gridChildren, leafAt, childrenAlignedVertically,
      ANode.data, abs_le])
    ((grid_detection_and_props.1 _).mpr
      ⟨by decide, by rw [hx]; decide, by rw [hy]; decide⟩)
  refine ⟨h.1, ?_, ?_⟩
  · rw [h.2.1, hx]; rfl
  · rw [h.2.2.1, hy]; rfl

/-! ### Claim C10: the layout analysis pass is idempotent -/

theorem rowResult_update_posMode (d : NodeData) (p : String) (g : List Geom) :
    rowResult { d with posMode := p } g = { rowResult d g with posMode := p } :=
  rfl

theorem colResult_update_posMode (d : NodeData) (p : String) (g : List Geom) :
    colResult { d with posMode := p } g = { colResult d g with posMode := p } :=
  rfl

theorem gridResult_update_posMode (d : NodeData) (p : String) (g : List Geom) :
    gridResult { d with posMode := p } g =
      { gridResult d g with posMode := p } := rfl

theorem rowResult_idem (d : NodeData) (g : List Geom) :
    rowResult (rowResult d g) g = rowResult d g := by
  by_cases hsp : 0 < calculateHorizontalSpacing g <;> simp [rowResult, hsp]

theorem colResult_idem (d : NodeData) (g : List Geom) :
    colResult (colResult d g) g = colResult d g := by
  by_cases hsp : 0 < calculateVerticalSpacing g <;> simp [colResult, hsp]

theorem gridResult_idem (d : NodeData) (g : List Geom) :
    gridResult (gridResult d g) g = gridResult d g := rfl

theorem classifyStep_update_posMode (d : NodeData) (p : String) (g : List Geom) :
    classifyStep { d with posMode := p } g =
      { classifyStep d g with posMode := p } := by
  by_cases h1 : childrenAlignedHorizontally g = true <;>
    by_cases h2 : childrenAlignedVertically g = true <;>
      by_cases h3 : appearsToBeGrid g = true <;>
        simp [classifyStep, h1, h2, h3, rowResult_update_posMode,
          colResult_update_posMode, gridResult_update_posMode]

theorem classifyStep_idem (d : NodeData) (g : List Geom) :
    classifyStep (classifyStep d g) g = classifyStep d g := by
  by_cases h1 : childrenAlignedHorizontally g = true <;>
    by_cases h2 : childrenAlignedVertically g = true <;>
      by_cases h3 : appearsToBeGrid g = true <;>
        simp [classifyStep, h1, h2, h3, rowResult_idem, colResult_idem,
          gridResult_idem]

theorem isEmpty_map (f : ANode → ANode) (cs : List ANode) :
    (cs.map f).isEmpty = cs.isEmpty := by
  cases cs <;> rfl

theorem analyzeLayout_geoms (cs : List ANode) :
    (cs.map analyzeLayout).map (fun c => c.data.geom) =
      cs.map (fun c => c.data.geom) := by
  rw [List.map_map]
  apply List.map_congr_left
  intro c _
  exact analyzeLayout_data_geom c

/-- Running `_analyze_node_layout` again on an already-analyzed node (whose
children have also been analyzed) changes nothing. -/
theorem analyzeData_idem (d : NodeData) (cs : List ANode) :
    analyzeData (analyzeData d cs) (cs.map analyzeLayout) =
      analyzeData d cs := by
  by_cases h0 : d.is_container = false ∨ cs.isEmpty = true
  · have h1 : analyzeData d cs = d := by
      unfold analyzeData; rw [if_pos h0]
    rw [h1]
    unfold analyzeData
    rw [if_pos]
    rcases h0 with h | h
    · exact Or.inl h
    · exact Or.inr (by rw [isEmpty_map]; exact h)
  · have hc2 : ¬ ((analyzeData d cs).is_container = false ∨
        (cs.map analyzeLayout).isEmpty = true) := by
      rw [analyzeData_is_container, isEmpty_map]
      exact h0
    have hres : analyzeData d cs =
        forceRelative (classifyStep d (cs.map (fun c => c.data.geom))) cs := by
      unfold analyzeData; rw [if_neg h0]
    conv_lhs => rw [analyzeData]
    rw [if_neg hc2, analyzeLayout_geoms, hres]
    by_cases hcond : (cs.any (fun c => c.data.posMode == "absolute")) ∧
        (classifyStep d (cs.map (fun c => c.data.geom))).flex_props = [] ∧
        (classifyStep d (cs.map (fun c => c.data.geom))).grid_props = []
    · have hforce : forceRelative
          (classifyStep d (cs.map (fun c => c.data.geom))) cs =
          { classifyStep d (cs.map (fun c => c.data.geom)) with
            posMode := "relative" } := by
        unfold forceRelative; rw [if_pos hcond]
      rw [hforce, classifyStep_update_posMode, classifyStep_idem]
      unfold forceRelative
      split
      · rfl
      · rfl
    · have hforce : forceRelative
          (classifyStep d (cs.map (fun c => c.data.geom))) cs =
          classifyStep d (cs.map (fun c => c.data.geom)) := by
        unfold forceRelative; rw [if_neg hcond]
      rw [hforce, classifyStep_idem]
      unfold forceRelative
      rw [if_neg]
      rintro ⟨habs, hf, hgr⟩
      apply hcond
      refine ⟨?_, hf, hgr⟩
      rw [List.any_eq_true] at habs ⊢
      rcases habs with ⟨c, hcm, hcabs⟩
      rcases List.mem_map.mp hcm with ⟨c0, hc0, rfl⟩
      refine ⟨c0, hc0, ?_⟩
      rw [beq_iff_eq] at hcabs ⊢
      exact analyzeLayout_posMode_abs hcabs

/-- Claim C10: the layout analysis pass is idempotent — running
`analyze_layout` a second time over an already-classified tree leaves every
node (layout record, flex props, grid props, position) exactly as after the
first run. -/
theorem analyzeLayout_idempotent (t : ANode) :
    analyzeLayout (analyzeLayout t) = analyzeLayout t := by
  induction t using ANode.inductionOn with
  | _ d cs ih =>
    rw [analyzeLayout_mk, analyzeLayout_mk]
    congr 1
    · exact analyzeData_idem d cs
    · rw [List.map_map]
      apply List.map_congr_left
      intro c hcm
      exact ih c hcm

/-! ## The tree builder (`convert_to_angular_nodes`)

The builder's control flow only looks at a record's `id` presence, its
`parent_id`, and the Python dict `node_map` it fills (pass 1) and reads
(pass 2).  A raw record is modelled by those two fields (a non-`dict` input
behaves exactly like a record with no `id`: skipped with a warning).  Node
identity is creation order: the constructed node of the `i`-th valid record
is the index `i`; `node_map` maps each id to the LAST index carrying it
(later `node_map[id] = node` assignments overwrite), children are edges
added by pass 2, and the returned roots are the nodes collected in pass 1
(those records with no `parent_id`) or the first dict value as fallback. -/

/-- The two fields of a raw Figma record the tree builder inspects. -/
structure RawRec where
  id : Option String
  parent_id : Option String
deriving DecidableEq

/-- The valid records (those carrying an `"id"`), as (id, parent_id) pairs in
input order — pass 1 creates one node per entry. -/
def validPairs (l : List RawRec) : List (String × Option String) :=
  l.filterMap (fun r => r.id.map (fun i => (i, r.parent_id)))

/-- `node_map[s]` at the end of pass 1: the index of the LAST valid record
with id `s` (dict assignment overwrites). -/
def lastIdx (vs : List (String × Option String)) (s : String) : Option ℕ :=
  match vs with
  | [] => none
  | q :: rest =>
    match lastIdx rest s with
    | some j => some (j + 1)
    | none => if q.1 = s then some 0 else none

/-- Pass 2: for each valid record `i` whose `parent_id` resolves in
`node_map` (its own id always does), `parent.add_child(child)` adds the edge
(parent index, child index); both ends resolve through `node_map`, hence
`lastIdx`. -/
def edges (vs : List (String × Option String)) : List (ℕ × ℕ) :=
  (List.range vs.length).filterMap (fun i =>
    (vs.get? i).bind (fun ci =>
      ci.2.bind (fun p =>
        (lastIdx vs p).bind (fun pj =>
          (lastIdx vs ci.1).map (fun cj => (pj, cj))))))

/-- The root candidates collected during pass 1: records with no
`parent_id`, in input order. -/
def rootIdxs (vs : List (String × Option String)) : List ℕ :=
  (List.range vs.length).filter
    (fun i => decide ((vs.get? i).map Prod.snd = some none))

/-- The returned roots: the collected candidates, or — when none were found
but `node_map` is non-empty — the first dict value
(`list(node_map.values())[0]`, i.e. the node currently mapped by the first
inserted id), with a warning. -/
def rootsWithFallback (vs : List (String × Option String)) : List ℕ :=
  if rootIdxs vs = [] then
    match vs.head? with
    | some q => (lastIdx vs q.1).toList
    | none => []
  else rootIdxs vs

/-- `convert_to_angular_nodes`, reduced to the indices of the returned root
nodes. -/
def convertRoots (l : List RawRec) : List ℕ :=
  rootsWithFallback (validPairs l)

/-- `j` is a child of `i` in the built tree. -/
def EdgeRel (vs : List (String × Option String)) (i j : ℕ) : Prop :=
  (i, j) ∈ edges vs

/-- `o` is in `r`'s descendant set (proper transitive closure of the child
relation). -/
def Descendant (vs : List (String × Option String)) (r o : ℕ) : Prop :=
  Relation.TransGen (EdgeRel vs) r o

theorem lastIdx_spec {vs : List (String × Option String)} {s : String} {j : ℕ}
    (h : lastIdx vs s = some j) : ∃ pid, vs.get? j = some (s, pid) := by
  induction vs generalizing j with
  | nil => simp [lastIdx] at h
  | cons q rest ih =>
    rw [lastIdx] at h
    rcases hr : lastIdx rest s with _ | j'
    · rw [hr] at h
      by_cases hq : q.1 = s
      · rw [if_pos hq] at h
        rcases Option.some_inj.mp h with rfl
        exact ⟨q.2, by simp [← hq]⟩
      · rw [if_neg hq] at h
        exact absurd h (by simp)
    · rw [hr] at h
      rcases Option.some_inj.mp h with rfl
      rcases ih hr with ⟨pid, hpid⟩
      exact ⟨pid, by simpa using hpid⟩

theorem lastIdx_isSome_of_mem {vs : List (String × Option String)} {s : String}
    (h : s ∈ vs.map Prod.fst) : (lastIdx vs s).isSome = true := by
  induction vs with
  | nil => simp at h
  | cons q rest ih =>
    rcases hr : lastIdx rest s with _ | j'
    · simp only [lastIdx, hr]
      simp only [List.map_cons, List.mem_cons] at h
      rcases h with h | h
      · rw [if_pos h.symm]; rfl
      · have := ih h
        rw [hr] at this
        exact absurd this (by simp)
    · simp only [lastIdx, hr]
      rfl

theorem mem_of_lastIdx_some {vs : List (String × Option String)} {s : String}
    {j : ℕ} (h : lastIdx vs s = some j) : s ∈ vs.map Prod.fst := by
  rcases lastIdx_spec h with ⟨pid, hpid⟩
  have := List.get?_mem hpid
  exact List.mem_map_of_mem Prod.fst this

theorem validPairs_length (l : List RawRec) :
    (validPairs l).length = l.countP (fun r => r.id.isSome) := by
  induction l with
  | nil => rfl
  | cons r rest ih =>
    rcases hid : r.id with _ | i
    · have hv : validPairs (r :: rest) = validPairs rest := by
        simp [validPairs, List.filterMap_cons, hid]
      rw [hv, ih, List.countP_cons]
      simp [hid]
    · have hv : validPairs (r :: rest) = (i, r.parent_id) :: validPairs rest := by
        simp [validPairs, List.filterMap_cons, hid]
      rw [hv, List.length_cons, ih, List.countP_cons]
      simp [hid]

/-- Claim C5, counterexample: an input consisting of one record with no
identifier is non-empty, yet conversion returns an empty root list (no node
is ever constructed, so the fallback does not fire). -/
theorem convert_nonempty_counterexample :
    convertRoots [{ id := none, parent_id := none }] = [] ∧
      ([{ id := none, parent_id := none }] : List RawRec) ≠ [] := by
  exact ⟨rfl, by simp⟩

/-- Claim C5 (amended): for every input list containing at least one VALID
record (one carrying an identifier, so that a node is constructed), the
returned root list is non-empty: root candidates are returned when found,
and otherwise the first-encountered constructed node is designated root
(with a warning). -/
theorem convert_roots_nonempty (l : List RawRec) (h : validPairs l ≠ []) :
    convertRoots l ≠ [] := by
  unfold convertRoots rootsWithFallback
  by_cases hr : rootIdxs (validPairs l) = []
  · rw [if_pos hr]
    rcases hhead : (validPairs l).head? with _ | q
    · rw [List.head?_eq_none_iff] at hhead
      exact absurd hhead h
    · have hq : q ∈ validPairs l := List.mem_of_mem_head? (by rw [hhead]; rfl)
      have hmem : q.1 ∈ (validPairs l).map Prod.fst :=
        List.mem_map_of_mem Prod.fst hq
      have hsome := lastIdx_isSome_of_mem hmem
      rcases ho : lastIdx (validPairs l) q.1 with _ | j
      · rw [ho] at hsome; exact absurd hsome (by simp)
      · simp [ho]
  · rw [if_neg hr]; exact hr

/-- Witness for the amended C5: a single record whose `parent_id` resolves
nowhere still yields a non-empty root list (via the fallback). -/
theorem convert_roots_nonempty_witness :
    convertRoots [{ id := some "a", parent_id := some "zz" }] ≠ [] :=
  convert_roots_nonempty [{ id := some "a", parent_id := some "zz" }]
    (by decide)

/-- Claim C6: conversion is total — records missing an identifier are
skipped (exactly one node is built per identifier-bearing record), and a
record whose `parent_id` resolves to no known id is left unattached: under
unique ids, its node has no incoming child edge, so it lies in no node's
descendant set, while conversion still returns a result. -/
theorem convert_skips_and_orphan (l : List RawRec) (o : ℕ) (cid p : String)
    (hnd : ((validPairs l).map Prod.fst).Nodup)
    (ho : (validPairs l).get? o = some (cid, some p))
    (hp : p ∉ (validPairs l).map Prod.fst) :
    (validPairs l).length = l.countP (fun r => r.id.isSome) ∧
      ∀ r, ¬ Descendant (validPairs l) r o := by
  refine ⟨validPairs_length l, ?_⟩
  intro r hdesc
  have hedge : ∃ k, EdgeRel (validPairs l) k o := by
    induction hdesc with
    | single h => exact ⟨_, h⟩
    | tail _ h => exact ⟨_, h⟩
  rcases hedge with ⟨k, hk⟩
  unfold EdgeRel edges at hk
  rw [List.mem_filterMap] at hk
  rcases hk with ⟨i, _, hfi⟩
  rcases hgi : (validPairs l).get? i with _ | ci
  · rw [hgi] at hfi; exact absurd hfi (by simp)
  · rw [hgi] at hfi
    rcases ci with ⟨cid2, pid2⟩
    simp only [Option.some_bind] at hfi
    rcases pid2 with _ | p2
    · exact absurd hfi (by simp)
    · simp only [Option.some_bind] at hfi
      rcases hlp : lastIdx (validPairs l) p2 with _ | pj
      · rw [hlp] at hfi; exact absurd hfi (by simp)
      · rw [hlp] at hfi
        simp only [Option.some_bind] at hfi
        rcases hlc : lastIdx (validPairs l) cid2 with _ | cj
        · rw [hlc] at hfi; exact absurd hfi (by simp)
        · rw [hlc] at hfi
          simp only [Option.map_some', Option.some.injEq,
            Prod.mk.injEq] at hfi
          have hcjo : cj = o := hfi.2
          rw [hcjo] at hlc
          rcases lastIdx_spec hlc with ⟨pidj, hpidj⟩
          -- the child end of the edge is the node at index `o`
          rw [ho] at hpidj
          have hpair := Option.some_inj.mp hpidj
          have hcid : cid2 = cid := ((Prod.mk.injEq _ _ _ _).mp hpair).1.symm
          -- unique ids force i = o
          have h1 : ((validPairs l).map Prod.fst).get? i = some cid := by
            rw [List.get?_map, hgi]
            simp [hcid]
          have h2 : ((validPairs l).map Prod.fst).get? o = some cid := by
            rw [List.get?_map, ho]
            rfl
          have hi' : i < ((validPairs l).map Prod.fst).length := by
            by_contra hlt
            rw [List.get?_eq_none.mpr (le_of_not_lt hlt)] at h1
            exact absurd h1 (by simp)
          have hio : i = o := List.get?_inj hi' hnd (h1.trans h2.symm)
          -- then the orphan's parent id resolved, contradiction
          rw [hio, ho] at hgi
          have hpair2 := Option.some_inj.mp hgi
          have hp2 : p = p2 :=
            Option.some_inj.mp ((Prod.mk.injEq _ _ _ _).mp hpair2).2
          rw [← hp2] at hlp
          exact hp (mem_of_lastIdx_some hlp)

/-- Witness for claim C6: a two-record input whose second record names an
unknown parent `"zz"`; the orphan (index 1) is a descendant of nobody. -/
theorem convert_skips_and_orphan_witness :
    (validPairs [{ id := some "a", parent_id := none },
                 { id := some "b", parent_id := some "zz" }]).length =
      ([{ id := some "a", parent_id := none },
        { id := some "b", parent_id := some "zz" }] : List RawRec).countP
        (fun r => r.id.isSome) ∧
    ¬ Descendant (validPairs [{ id := some "a", parent_id := none },
                              { id := some "b", parent_id := some "zz" }])
      0 1 := by
  have h := convert_skips_and_orphan
    [{ id := some "a", parent_id := none },
     { id := some "b", parent_id := some "zz" }] 1 "b" "zz"
    (by decide) (by decide) (by decide)
  exact ⟨h.1, h.2 0⟩

end Figma2Code
